import Mathlib

/-
  Verification of `50states-tracker/collect_marathon_data.py`.

  The script scrapes marathon listings: `parse_races_from_html` runs a JavaScript
  snippet over the rendered state page (rows of a table), filters and ranks race
  candidates; `extract_elevation_data` recovers elevation gain/loss from a race
  detail page with a two-tier regex strategy; `collect_state_data` takes the top
  `max_races` candidates and enriches them; `main` iterates the 50 states and
  writes a CSV via `csv.DictWriter`.

  The embedding models the DOM facts the code observes (cells, headings, anchor
  text, the elevation section / body text) and hand-compiles each regex used by
  the source into an equivalent explicit scanner over `List Char`, preserving
  Python `re.search` / JavaScript `String.match` leftmost-match semantics
  (including the backtracking behaviour of the optional thousands group).
-/

/-! ## Character and string utilities

`isSpaceChar` models the whitespace class used by JavaScript `trim` /
Python `\s` for the ASCII inputs the site produces. -/

def isSpaceChar (c : Char) : Bool :=
  c == ' ' || c == '\t' || c == '\n' || c == '\r' || c == Char.ofNat 11 || c == Char.ofNat 12

/-- Models JavaScript `String.prototype.trim`. -/
def trimChars (s : String) : String :=
  String.mk (((s.toList.dropWhile isSpaceChar).reverse.dropWhile isSpaceChar).reverse)

/-- Models `text.split(',')[0]`: everything before the first comma. -/
def beforeComma (s : String) : String :=
  String.mk (s.toList.takeWhile (fun c => c != ','))

/-- Case-insensitive prefix test: `n` is an (already lowercased) needle,
the haystack characters are lowercased on the fly (models `re.IGNORECASE` /
the `i` regex flag over ASCII). -/
def isPrefixLC : List Char → List Char → Bool
  | [], _ => true
  | _ :: _, [] => false
  | a :: as, b :: bs => (a == Char.toLower b) && isPrefixLC as bs

/-- Case-insensitive substring test (models `str.toLowerCase().includes(n)` and
the existence of a regex literal match). -/
def containsLC (n : List Char) : List Char → Bool
  | [] => isPrefixLC n []
  | b :: bs => isPrefixLC n (b :: bs) || containsLC n bs

/-- Leftmost-match scanner: try the literal needle at every position, left to
right; on a needle hit run `f` on the text after the needle; the first position
where `f` succeeds wins (Python `re.search` semantics for patterns that start
with a literal). -/
def scanAfter (f : List Char → Option (List Char)) (n : List Char) :
    List Char → Option (List Char)
  | [] => none
  | b :: bs =>
    if isPrefixLC n (b :: bs) then
      match f (List.drop n.length (b :: bs)) with
      | some r => some r
      | none => scanAfter f n bs
    else scanAfter f n bs

/-- Decimal value of a digit string (models `parseInt` on a comma-free match). -/
def digitsToNat (ds : List Char) : Nat :=
  ds.foldl (fun n c => 10 * n + (c.toNat - '0'.toNat)) 0

/-- Drop the `[:\s]*` separator of the elevation patterns (greedy; backtracking
cannot help because the next pattern element is `\d`). -/
def dropLabelSep (s : List Char) : List Char :=
  s.dropWhile (fun c => c == ':' || isSpaceChar c)

/-- Drop `\s*`. -/
def dropWS (s : List Char) : List Char :=
  s.dropWhile isSpaceChar

/-! ## The finisher-count regex

JavaScript: `finisherText.match(/(\d+(?:,\d+)?)\s*Finisher/i)` followed by
`parseInt(m[1].replace(/,/g, ''))`.  `finisherTry` is one match attempt at a
position whose head is a digit; the greedy optional `(?:,\d+)?` group is tried
with the comma part first, then without, exactly as the backtracking engine
does. -/

def finWordAt (s : List Char) : Bool :=
  isPrefixLC ("finisher".toList) (dropWS s)

def finisherTry (s : List Char) : Option Nat :=
  let d1 := s.takeWhile Char.isDigit
  let r1 := s.dropWhile Char.isDigit
  if d1.isEmpty then none
  else
    match r1 with
    | ',' :: r2 =>
      let d2 := r2.takeWhile Char.isDigit
      let r3 := r2.dropWhile Char.isDigit
      if !d2.isEmpty && finWordAt r3 then some (digitsToNat (d1 ++ d2))
      else if finWordAt r1 then some (digitsToNat d1)
      else none
    | _ => if finWordAt r1 then some (digitsToNat d1) else none

def finisherSearch : List Char → Option Nat
  | [] => none
  | c :: rest =>
    if c.isDigit then
      match finisherTry (c :: rest) with
      | some n => some n
      | none => finisherSearch rest
    else finisherSearch rest

/-! ## DOM model of a listing-page table row

Exactly the features the JavaScript in `parse_races_from_html` inspects:
`row.cells`, per-cell `querySelector('h1' | 'h3' | 'h4')`, the heading's
`innerText`, an optional `a[href*="race-detail"]` anchor (its `innerText`),
and an optional `span[itemprop="startDate"]` (its `content` attribute and
`innerText`). -/

structure DateSpan where
  contentAttr : Option String
  text : String
deriving DecidableEq

structure HeadingElem where
  text : String
  raceLink : Option String
  dateSpan : Option DateSpan
deriving DecidableEq

structure Cell where
  h1 : Option HeadingElem
  h3 : Option HeadingElem
  h4 : Option HeadingElem
  text : String
deriving DecidableEq

structure Row where
  cells : List Cell
deriving DecidableEq

def emptyCell : Cell := { h1 := none, h3 := none, h4 := none, text := "" }

structure RaceCandidate where
  name : String
  city : String
  date : String
  finishers : Nat
  courseType : String
deriving DecidableEq

/-- Line 32 of the source (the list is defined there and never consulted by
the filtering code). -/
def VALID_COURSE_TYPES : List String :=
  ["Flat", "Mostly Flat", "Downhill", "Hilly", "Rolling Hills"]

/-! ## parse_races_from_html (lines 80-205) -/

/-- Lines 100-116: spotlight rows (`h1` present) use `h1` as name and `h3` as
city line; otherwise regular rows use `h3` as name and `h4` as city line; rows
with neither shape are skipped. -/
def resolveNameCity (c0 : Cell) : Option (HeadingElem × Option HeadingElem) :=
  match c0.h1 with
  | some e => some (e, c0.h3)
  | none =>
    match c0.h3 with
    | some e => some (e, c0.h4)
    | none => none

/-- Lines 120-127: anchor text if a race-detail link exists, else the heading
text, trimmed. -/
def raceNameOf (e : HeadingElem) : String :=
  match e.raceLink with
  | some t => trimChars t
  | none => trimChars e.text

/-- Lines 133-140: substring of the trimmed city line before the first comma,
trimmed again; empty when there is no city element. -/
def cityOf (ce : Option HeadingElem) : String :=
  match ce with
  | some e => trimChars (beforeComma (trimChars e.text))
  | none => ""

/-- Lines 142-146: the start-date span's `content` attribute if present and
non-empty (JavaScript `||`), else its trimmed text; empty when absent. -/
def dateOf (ce : Option HeadingElem) : String :=
  match ce with
  | none => ""
  | some e =>
    match e.dateSpan with
    | none => ""
    | some ds =>
      match ds.contentAttr with
      | some a => if a = "" then trimChars ds.text else a
      | none => trimChars ds.text

/-- Lines 149-158: course type from the `h4` of the second cell if present,
else the cell's own text, trimmed. -/
def rawCourseOf (row : Row) : String :=
  let c1 := row.cells.getD 1 emptyCell
  match c1.h4 with
  | some e => trimChars e.text
  | none => trimChars c1.text

/-- Lines 160-163: the unconditional `"Very Flat"` → `"Flat"` rewrite
(exact, case-sensitive string comparison). -/
def normCourseOf (row : Row) : String :=
  if rawCourseOf row = "Very Flat" then "Flat" else rawCourseOf row

/-- Lines 168-176: finisher count from the fourth cell, `0` when the regex
does not match. -/
def finishersOf (row : Row) : Nat :=
  match finisherSearch ((row.cells.getD 3 emptyCell).text.toList) with
  | some n => n
  | none => 0

/-- Lines 178-184: `certText.toLowerCase().includes('not certified')` on the
fifth cell when it exists. -/
def certBad (row : Row) : Bool :=
  match row.cells.get? 4 with
  | some c => containsLC ("not certified".toList) (c.text.toList)
  | none => false

/-- The per-row body of the extraction loop (lines 90-196): `none` models
`continue`. -/
def parseRow (row : Row) : Option RaceCandidate :=
  if row.cells.length < 4 then none
  else
    match resolveNameCity (row.cells.getD 0 emptyCell) with
    | none => none
    | some (ne, ce) =>
      if raceNameOf ne = "" then none
      else if normCourseOf row = "Very Hilly" then none
      else if certBad row = true then none
      else if finishersOf row < 100 then none
      else
        some {
          name := raceNameOf ne
          city := cityOf ce
          date := if dateOf ce = "" then "-" else dateOf ce
          finishers := finishersOf row
          courseType := if normCourseOf row = "" then "-" else normCourseOf row }

/-- Stable insertion into a descending-by-finishers list: the inserted element
(which comes earlier in the original order) goes before elements with equal
finisher counts. -/
def insertDesc (x : RaceCandidate) : List RaceCandidate → List RaceCandidate
  | [] => [x]
  | y :: ys =>
    if x.finishers < y.finishers then y :: insertDesc x ys
    else x :: y :: ys

/-- Stable descending sort, modelling line 199's
`results.sort((a, b) => b.finishers - a.finishers)` (JavaScript `sort` is
stable, and this comparator orders by finishers descending with ties kept in
original order). -/
def sortDesc : List RaceCandidate → List RaceCandidate
  | [] => []
  | x :: xs => insertDesc x (sortDesc xs)

/-- `parse_races_from_html` (lines 80-205): run the row loop over every table
row of the document, then sort by finishers descending. -/
def parse_races_from_html (doc : List Row) : List RaceCandidate :=
  sortDesc (doc.filterMap parseRow)

/-! ## extract_elevation_data (lines 35-77)

The detail page is modelled by the three observations the code makes of it:
the raw rendered content (`page.content()`), the `innerText` of an elevation
section element if `#Elevation, [id*="elevation"], .elevation` selects one,
and `document.body.innerText`.  Navigation/network failures are handled by the
`except` clause, which is outside the pure fragment; the modelled function is
total, matching the contract that `extract_elevation_data` never raises. -/

structure ElevPage where
  content : String
  elevSection : Option String
  bodyText : String
deriving DecidableEq

/-- One tier-1 attempt after the literal label (lines 49-50):
`[:\s]*(\d+(?:,\d+)?)\s*(?:feet|ft)`.  The greedy optional comma group is
tried with the `,\d+` part first, then without, as the backtracking engine
does; `\d+` itself never benefits from giving back digits because the next
element can only be `,`, `\s` or `f`. -/
def unitsOK (s : List Char) : Bool :=
  isPrefixLC ("feet".toList) (dropWS s) || isPrefixLC ("ft".toList) (dropWS s)

def tier1After (s : List Char) : Option (List Char) :=
  let s1 := dropLabelSep s
  let d1 := s1.takeWhile Char.isDigit
  let r1 := s1.dropWhile Char.isDigit
  if d1.isEmpty then none
  else
    match r1 with
    | ',' :: r2 =>
      let d2 := r2.takeWhile Char.isDigit
      let r3 := r2.dropWhile Char.isDigit
      if !d2.isEmpty && unitsOK r3 then some (d1 ++ ',' :: d2)
      else if unitsOK r1 then some d1
      else none
    | _ => if unitsOK r1 then some d1 else none

/-- One tier-2 attempt after the label (lines 67-68): `[:\s]*(\d+(?:,\d+)?)`.
The optional `(?:Elevation\s*)?` prefix of the source pattern never changes
the captured group: every match contains a `Gain`/`Loss` occurrence followed
by `[:\s]*\d`, and no occurrence of either label can start strictly inside
the text matched by `Elevation\s*`, so the leftmost match always
captures the digits after the leftmost qualifying label occurrence — which is
what scanning for the bare label finds. -/
def tier2After (s : List Char) : Option (List Char) :=
  let s1 := dropLabelSep s
  let d1 := s1.takeWhile Char.isDigit
  let r1 := s1.dropWhile Char.isDigit
  if d1.isEmpty then none
  else
    match r1 with
    | ',' :: r2 =>
      let d2 := r2.takeWhile Char.isDigit
      if d2.isEmpty then some d1 else some (d1 ++ ',' :: d2)
    | _ => some d1

def tier1Gain (s : String) : Option String :=
  (scanAfter tier1After ("elevation gain".toList) s.toList).map String.mk

def tier1Loss (s : String) : Option String :=
  (scanAfter tier1After ("elevation loss".toList) s.toList).map String.mk

def tier2Gain (s : String) : Option String :=
  (scanAfter tier2After ("gain".toList) s.toList).map String.mk

def tier2Loss (s : String) : Option String :=
  (scanAfter tier2After ("loss".toList) s.toList).map String.mk

/-- Split at the first suffix satisfying `p`: `some (before, suffix)`. -/
def splitAtFirst (p : List Char → Bool) : List Char → Option (List Char × List Char)
  | [] => none
  | b :: bs =>
    if p (b :: bs) then some ([], b :: bs)
    else
      match splitAtFirst p bs with
      | some (pre, suf) => some (b :: pre, suf)
      | none => none

def headIsDigit : List Char → Bool
  | [] => false
  | c :: _ => c.isDigit

/-- One round of the global body-text regex (line 61):
`/elevation[\s\S]*?(?:gain|loss)[\s\S]*?\d+/gi`.  A match starts at a literal
`elevation`; the first lazy gap ends at the first `gain`/`loss` after it; the
second at the first digit after that word; `\d+` then takes the maximal digit
run.  If the first `elevation` has no `gain`/`loss`-then-digit after it, no
later start can have one either (the witness sets only shrink), so a failed
round means no further matches. -/
def matchRound (cs : List Char) : Option (List Char × List Char) :=
  match splitAtFirst (fun t => isPrefixLC ("elevation".toList) t) cs with
  | none => none
  | some (_, suf) =>
    match splitAtFirst
        (fun t => isPrefixLC ("gain".toList) t || isPrefixLC ("loss".toList) t)
        (suf.drop 9) with
    | none => none
    | some (mid, suf2) =>
      match splitAtFirst headIsDigit (suf2.drop 4) with
      | none => none
      | some (mid2, suf3) =>
        some (suf.take 9 ++ mid ++ suf2.take 4 ++ mid2 ++ suf3.takeWhile Char.isDigit,
              suf3.dropWhile Char.isDigit)

/-- Successive non-overlapping matches (the `g` flag): the next scan resumes
after the previous match.  Each round consumes at least 14 characters, so
`cs.length` rounds of fuel always suffice. -/
def bodyMatchesGo : Nat → List Char → List (List Char)
  | 0, _ => []
  | Nat.succ fuel, cs =>
    match matchRound cs with
    | none => []
    | some (m, rest) => m :: bodyMatchesGo fuel rest

def bodyMatches (cs : List Char) : List (List Char) := bodyMatchesGo cs.length cs

/-- `elevMatch.join(' | ')`. -/
def joinBar : List (List Char) → List Char
  | [] => []
  | [m] => m
  | m :: ms => m ++ ' ' :: '|' :: ' ' :: joinBar ms

/-- Lines 54-64: the scoped fallback text — the elevation section's
`innerText` when the selector hits, else the joined body-text matches
(`''` when there are none, via the `null` ternary). -/
def proxyText (p : ElevPage) : String :=
  match p.elevSection with
  | some t => t
  | none =>
    match bodyMatches p.bodyText.toList with
    | [] => ""
    | ms => String.mk (joinBar ms)

/-- `m.group(1).replace(',', '')` (Python `replace` removes every comma). -/
def stripCommas (s : String) : String :=
  String.mk (s.toList.filter (fun c => c != ','))

/-- Lines 70-71: a matched group is comma-stripped, a missing match becomes
the sentinel. -/
def finalizeField (m : Option String) : String :=
  match m with
  | some s => stripCommas s
  | none => "-"

/-- `extract_elevation_data` (lines 35-77), pure fragment: tier-1 label
matches over the raw content; if either is missing, the scoped proxy text is
computed and, when non-empty, BOTH match variables are reassigned from the
tier-2 patterns over that proxy text (lines 66-68 overwrite `gain_match` and
`loss_match` unconditionally). -/
def extract_elevation_data (p : ElevPage) : String × String :=
  let gm0 := tier1Gain p.content
  let lm0 := tier1Loss p.content
  let gl :=
    if gm0.isNone || lm0.isNone then
      let etext := proxyText p
      if etext ≠ "" then (tier2Gain etext, tier2Loss etext) else (gm0, lm0)
    else (gm0, lm0)
  (finalizeField gl.1, finalizeField gl.2)

/-- Numeric shape of a captured group: every character is a digit or a comma. -/
def NumShape (r : List Char) : Prop := ∀ c ∈ r, c.isDigit = true ∨ c = ','

/-- "No elevation-related text": none of the three words the recovery patterns
anchor on occurs (case-insensitively) in the given string. -/
def mentionsElev (s : String) : Bool :=
  containsLC ("elevation".toList) s.toList || containsLC ("gain".toList) s.toList ||
    containsLC ("loss".toList) s.toList

/-! ## collect_state_data (lines 208-246) and main (lines 253-291)

Fetching is an external collaborator: the listing page a state resolves to and
the detail page a race name resolves to are parameters (`site`, `details`).
URL construction / %20-encoding is pure I/O plumbing and is not observable in
the collected data. -/

structure MarathonRecord where
  state : String
  stateCode : String
  name : String
  city : String
  date : String
  finishers : Nat
  courseType : String
  gain : String
  loss : String
deriving DecidableEq

/-- The candidate fields carried inside a record (lines 235-239 copy them
verbatim from the race dict). -/
def candidateOf (r : MarathonRecord) : RaceCandidate :=
  { name := r.name, city := r.city, date := r.date, finishers := r.finishers,
    courseType := r.courseType }

/-- Lines 219-246: extract, truncate to the top `max_races`, enrich each
survivor with elevation data from its detail page. -/
def collect_state_data (state stateCode : String) (maxRaces : Nat)
    (listing : List Row) (details : String → ElevPage) : List MarathonRecord :=
  ((parse_races_from_html listing).take maxRaces).map fun race =>
    let gl := extract_elevation_data (details race.name)
    { state := state, stateCode := stateCode, name := race.name, city := race.city,
      date := race.date, finishers := race.finishers, courseType := race.courseType,
      gain := gl.1, loss := gl.2 }

/-- The source's `max_races=5` default (line 208). -/
def default_max_races : Nat := 5

/-- Lines 232-242: the dict built for each race, in its insertion order
(`Date` is fifth here; `csv.DictWriter` reorders by `fieldnames`). -/
def recordDict (r : MarathonRecord) : List (String × String) :=
  [("State", r.state), ("State_Code", r.stateCode), ("Marathon Name", r.name),
   ("City", r.city), ("Date", r.date), ("Finishers", toString r.finishers),
   ("Course Type", r.courseType), ("Elevation Gain (ft)", r.gain),
   ("Elevation Loss (ft)", r.loss)]

/-- Lines 279-280. -/
def fieldnames : List String :=
  ["State", "State_Code", "Marathon Name", "City", "Finishers", "Course Type",
   "Elevation Gain (ft)", "Elevation Loss (ft)", "Date"]

/-- `csv.DictWriter` row emission: one value per field name, looked up in the
row dict. -/
def dictRow (fns : List String) (d : List (String × String)) : List String :=
  fns.map fun k => (d.lookup k).getD ""

/-- Lines 15-29. -/
def US_STATES : List (String × String) :=
  [("Alabama", "AL"), ("Alaska", "AK"), ("Arizona", "AZ"), ("Arkansas", "AR"),
   ("California", "CA"), ("Colorado", "CO"), ("Connecticut", "CT"), ("Delaware", "DE"),
   ("Florida", "FL"), ("Georgia", "GA"), ("Hawaii", "HI"), ("Idaho", "ID"),
   ("Illinois", "IL"), ("Indiana", "IN"), ("Iowa", "IA"), ("Kansas", "KS"),
   ("Kentucky", "KY"), ("Louisiana", "LA"), ("Maine", "ME"), ("Maryland", "MD"),
   ("Massachusetts", "MA"), ("Michigan", "MI"), ("Minnesota", "MN"), ("Mississippi", "MS"),
   ("Missouri", "MO"), ("Montana", "MT"), ("Nebraska", "NE"), ("Nevada", "NV"),
   ("New Hampshire", "NH"), ("New Jersey", "NJ"), ("New Mexico", "NM"), ("New York", "NY"),
   ("North Carolina", "NC"), ("North Dakota", "ND"), ("Ohio", "OH"), ("Oklahoma", "OK"),
   ("Oregon", "OR"), ("Pennsylvania", "PA"), ("Rhode Island", "RI"), ("South Carolina", "SC"),
   ("South Dakota", "SD"), ("Tennessee", "TN"), ("Texas", "TX"), ("Utah", "UT"),
   ("Vermont", "VT"), ("Virginia", "VA"), ("Washington", "WA"), ("West Virginia", "WV"),
   ("Wisconsin", "WI"), ("Wyoming", "WY")]

/-- `main` (lines 253-291): iterate the states in order, accumulate each
state's records, emit the header row and then one CSV row per record. -/
def mainTable (site : String → List Row) (details : String → ElevPage) :
    List (List String) :=
  let all_races :=
    (US_STATES.map fun sc =>
      collect_state_data sc.1 sc.2 default_max_races (site sc.1) details).flatten
  fieldnames :: all_races.map fun r => dictRow fieldnames (recordDict r)

/-! ## Concrete inputs used by witnesses and counterexamples -/

/-- A regular (h3/h4) listing row whose course type is outside the normalized
vocabulary. -/
def c1row : Row :=
  { cells := [
      { h1 := none,
        h3 := some { text := "Granite Peak Marathon", raceLink := none, dateSpan := none },
        h4 := none, text := "" },
      { h1 := none, h3 := none,
        h4 := some { text := "Mountainous", raceLink := none, dateSpan := none }, text := "" },
      emptyCell,
      { h1 := none, h3 := none, h4 := none, text := "523 Finishers" }] }

def c1doc : List Row := [c1row]

def c1cand : RaceCandidate :=
  { name := "Granite Peak Marathon", city := "", date := "-", finishers := 523,
    courseType := "Mountainous" }

/-- A detail page where the tier-1 gain label matches but the loss label does
not, and the elevation section exists but contains no usable text. -/
def c2xpage : ElevPage :=
  { content := "Elevation Gain: 350 feet", elevSection := some "see chart", bodyText := "" }

/-- A detail page exercising the tier-2 branch: tier-1 gain matches, loss does
not, and the elevation section holds only a loss figure. -/
def c2wpage : ElevPage :=
  { content := "Elevation Gain: 5 ft", elevSection := some "Loss: 7", bodyText := "" }

/-- An ordinary surviving row for the filter claim. -/
def c3row : Row :=
  { cells := [
      { h1 := none,
        h3 := some { text := "Cap City Marathon", raceLink := none, dateSpan := none },
        h4 := none, text := "" },
      { h1 := none, h3 := none,
        h4 := some { text := "Hilly", raceLink := none, dateSpan := none }, text := "" },
      emptyCell,
      { h1 := none, h3 := none, h4 := none, text := "2,345 Finishers" }] }

def c3doc : List Row := [c3row]

def c3cand : RaceCandidate :=
  { name := "Cap City Marathon", city := "", date := "-", finishers := 2345,
    courseType := "Hilly" }

/-- The spec's free-text elevation example: labels separated from their
numbers by words. -/
def c5xpage : ElevPage :=
  { content := "The elevation gain is about 350 and loss near 120 overall.",
    elevSection := none,
    bodyText := "The elevation gain is about 350 and loss near 120 overall." }

/-- Free-text mention where the number directly follows the label. -/
def c5apage : ElevPage :=
  { content := "Notes: elevation gain: 350 and loss: 120 total.",
    elevSection := none,
    bodyText := "Notes: elevation gain: 350 and loss: 120 total." }

/-- Canonical tier-1 labels with a thousands separator. -/
def c5bpage : ElevPage :=
  { content := "Elevation Gain: 1,200 feet, Elevation Loss: 85 feet",
    elevSection := none, bodyText := "" }

/-- A detail page with no elevation-related text anywhere. -/
def c6page : ElevPage :=
  { content := "Race day parking info.", elevSection := none, bodyText := "See you soon." }

def c7ne : HeadingElem := { text := "Tiny Marathon", raceLink := none, dateSpan := none }

/-- A minimal row: no city line, no date, no anchor, no fifth cell; raw course
type `"Very Flat"`. -/
def c7row : Row :=
  { cells := [
      { h1 := none, h3 := some c7ne, h4 := none, text := "" },
      { h1 := none, h3 := none, h4 := none, text := "Very Flat" },
      emptyCell,
      { h1 := none, h3 := none, h4 := none, text := "150 Finishers" }] }

def c10neVH : HeadingElem :=
  { text := "Lowercase Hills Marathon", raceLink := none, dateSpan := none }

/-- Course-type text `"very hilly"`: a case variant of the excluded value. -/
def c10rowVH : Row :=
  { cells := [
      { h1 := none, h3 := some c10neVH, h4 := none, text := "" },
      { h1 := none, h3 := none, h4 := none, text := "very hilly" },
      emptyCell,
      { h1 := none, h3 := none, h4 := none, text := "300 Finishers" }] }

def c10neVF : HeadingElem :=
  { text := "Upper Flats Marathon", raceLink := none, dateSpan := none }

/-- Course-type text `"VERY FLAT"`: a case variant of the normalized value. -/
def c10rowVF : Row :=
  { cells := [
      { h1 := none, h3 := some c10neVF, h4 := none, text := "" },
      { h1 := none, h3 := none, h4 := none, text := "VERY FLAT" },
      emptyCell,
      { h1 := none, h3 := none, h4 := none, text := "200 Finishers" }] }

/-- A row whose fifth cell carries an upper-case certification warning. -/
def c10rowCert : Row :=
  { cells := [
      { h1 := none,
        h3 := some { text := "Borderline Marathon", raceLink := none, dateSpan := none },
        h4 := none, text := "" },
      { h1 := none, h3 := none, h4 := none, text := "Flat" },
      emptyCell,
      { h1 := none, h3 := none, h4 := none, text := "400 Finishers" },
      { h1 := none, h3 := none, h4 := none, text := "Course is NOT Certified" }] }

/-! ## Lemmas about the row parser -/

theorem parseRow_props {row : Row} {c : RaceCandidate} (h : parseRow row = some c) :
    100 ≤ c.finishers ∧ c.courseType ≠ "Very Hilly" ∧ c.courseType ≠ "Very Flat" ∧
    c.courseType ≠ "" ∧ certBad row = false := by
  unfold parseRow at h
  split at h
  · exact Option.noConfusion h
  split at h
  · exact Option.noConfusion h
  next ne ce heq =>
    split at h
    · exact Option.noConfusion h
    split at h
    · exact Option.noConfusion h
    split at h
    · exact Option.noConfusion h
    split at h
    · exact Option.noConfusion h
    next hname hvh hcb hf =>
      injection h with h
      subst h
      refine ⟨Nat.le_of_not_lt hf, ?_, ?_, ?_, Bool.eq_false_iff.mpr hcb⟩
      · by_cases he : normCourseOf row = "" <;> simp [he]
        · exact hvh
      · by_cases he : normCourseOf row = "" <;> simp [he]
        unfold normCourseOf
        split
        · decide
        next hraw => exact hraw
      · by_cases he : normCourseOf row = "" <;> simp [he]

theorem parseRow_success {row : Row} {ne : HeadingElem} {ce : Option HeadingElem}
    (h4 : ¬ row.cells.length < 4)
    (hr : resolveNameCity (row.cells.getD 0 emptyCell) = some (ne, ce))
    (hn : ¬ raceNameOf ne = "")
    (hvh : ¬ normCourseOf row = "Very Hilly")
    (hcb : ¬ certBad row = true)
    (hf : ¬ finishersOf row < 100) :
    parseRow row = some {
      name := raceNameOf ne, city := cityOf ce,
      date := if dateOf ce = "" then "-" else dateOf ce,
      finishers := finishersOf row,
      courseType := if normCourseOf row = "" then "-" else normCourseOf row } := by
  unfold parseRow
  rw [if_neg h4, hr]
  dsimp only
  rw [if_neg hn, if_neg hvh, if_neg hcb, if_neg hf]

/-- Any reason at all (including a bad certification cell) yields `none`. -/
theorem parseRow_none_of_certBad {row : Row} (h : certBad row = true) :
    parseRow row = none := by
  unfold parseRow
  split
  · rfl
  split
  · rfl
  split
  · rfl
  split
  · rfl
  rfl

/-! ## Lemmas about the stable descending sort -/

theorem mem_insertDesc {x a : RaceCandidate} {l : List RaceCandidate} :
    a ∈ insertDesc x l ↔ a = x ∨ a ∈ l := by
  induction l with
  | nil => simp [insertDesc]
  | cons y ys ih =>
    unfold insertDesc
    split <;> (simp only [List.mem_cons, ih]; try tauto)

theorem mem_sortDesc {a : RaceCandidate} {l : List RaceCandidate} :
    a ∈ sortDesc l ↔ a ∈ l := by
  induction l with
  | nil => simp [sortDesc]
  | cons y ys ih => simp [sortDesc, mem_insertDesc, ih]

theorem pairwise_insertDesc {x : RaceCandidate} {l : List RaceCandidate}
    (h : l.Pairwise (fun a b => b.finishers ≤ a.finishers)) :
    (insertDesc x l).Pairwise (fun a b => b.finishers ≤ a.finishers) := by
  induction l with
  | nil => simp [insertDesc]
  | cons y ys ih =>
    rw [List.pairwise_cons] at h
    unfold insertDesc
    split
    next hlt =>
      rw [List.pairwise_cons]
      refine ⟨fun b hb => ?_, ih h.2⟩
      rcases mem_insertDesc.mp hb with rfl | hb
      · exact Nat.le_of_lt hlt
      · exact h.1 b hb
    next hge =>
      rw [List.pairwise_cons]
      refine ⟨fun b hb => ?_, List.pairwise_cons.mpr h⟩
      rcases List.mem_cons.mp hb with rfl | hb
      · exact Nat.le_of_not_lt hge
      · exact Nat.le_trans (h.1 b hb) (Nat.le_of_not_lt hge)

theorem sortDesc_pairwise (l : List RaceCandidate) :
    (sortDesc l).Pairwise (fun a b => b.finishers ≤ a.finishers) := by
  induction l with
  | nil => exact List.Pairwise.nil
  | cons y ys ih => exact pairwise_insertDesc ih

theorem filter_insertDesc (x : RaceCandidate) (l : List RaceCandidate) (k : Nat) :
    (insertDesc x l).filter (fun c => c.finishers == k)
      = if x.finishers == k then x :: l.filter (fun c => c.finishers == k)
        else l.filter (fun c => c.finishers == k) := by
  induction l with
  | nil =>
    simp only [insertDesc, List.filter_cons, List.filter_nil]
  | cons y ys ih =>
    unfold insertDesc
    split
    next hlt =>
      by_cases hx : x.finishers = k
      · have hy : (y.finishers == k) = false := by
          have : y.finishers ≠ k := by omega
          simp [this]
        simp [List.filter_cons, hx, hy, ih]
      · simp [List.filter_cons, hx, ih]
    next hge =>
      by_cases hx : x.finishers = k <;> simp [List.filter_cons, hx]

theorem sortDesc_filter (l : List RaceCandidate) (k : Nat) :
    (sortDesc l).filter (fun c => c.finishers == k)
      = l.filter (fun c => c.finishers == k) := by
  induction l with
  | nil => rfl
  | cons y ys ih =>
    show (insertDesc y (sortDesc ys)).filter _ = _
    rw [filter_insertDesc, List.filter_cons]
    by_cases hy : y.finishers = k <;> simp [hy, ih]

/-! ## Lemmas about the regex scanners -/

theorem scanAfter_eq_none (f : List Char → Option (List Char)) (n : List Char) :
    ∀ hay, containsLC n hay = false → scanAfter f n hay = none := by
  intro hay
  induction hay with
  | nil => intro _; rfl
  | cons b bs ih =>
    intro h
    rw [containsLC, Bool.or_eq_false_iff] at h
    unfold scanAfter
    rw [if_neg (by simp [h.1])]
    exact ih h.2

theorem scanAfter_shape (f : List Char → Option (List Char)) (n : List Char)
    (P : List Char → Prop) (hf : ∀ s r, f s = some r → P r) :
    ∀ hay r, scanAfter f n hay = some r → P r := by
  intro hay
  induction hay with
  | nil => intro r h; exact Option.noConfusion h
  | cons b bs ih =>
    intro r h
    unfold scanAfter at h
    split at h
    · split at h
      next s heq =>
        injection h with h
        exact h ▸ hf _ s heq
      next => exact ih r h
    · exact ih r h

theorem isPrefixLC_append_right {xs ys : List Char} :
    ∀ {hay}, isPrefixLC (xs ++ ys) hay = true → containsLC ys hay = true := by
  induction xs with
  | nil =>
    intro hay h
    rw [List.nil_append] at h
    cases hay with
    | nil => exact h
    | cons b bs => rw [containsLC, h]; rfl
  | cons x xs ih =>
    intro hay h
    cases hay with
    | nil => exact Bool.noConfusion h
    | cons b bs =>
      rw [List.cons_append, isPrefixLC, Bool.and_eq_true] at h
      rw [containsLC, ih h.2, Bool.or_true]

theorem containsLC_append_right {xs ys : List Char} :
    ∀ {hay}, containsLC (xs ++ ys) hay = true → containsLC ys hay = true := by
  intro hay
  induction hay with
  | nil =>
    intro h
    rw [containsLC] at h ⊢
    exact @isPrefixLC_append_right _ _ [] h
  | cons b bs ih =>
    intro h
    rw [containsLC, Bool.or_eq_true] at h
    rcases h with h | h
    · exact isPrefixLC_append_right h
    · rw [containsLC, ih h, Bool.or_true]

theorem containsLC_append_false {xs ys hay : List Char}
    (h : containsLC ys hay = false) : containsLC (xs ++ ys) hay = false := by
  cases hc : containsLC (xs ++ ys) hay with
  | false => rfl
  | true => exact absurd (containsLC_append_right hc) (by simp [h])

theorem splitAtFirst_eq_none {n : List Char} :
    ∀ {hay}, containsLC n hay = false →
      splitAtFirst (fun t => isPrefixLC n t) hay = none := by
  intro hay
  induction hay with
  | nil => intro _; rfl
  | cons b bs ih =>
    intro h
    rw [containsLC, Bool.or_eq_false_iff] at h
    unfold splitAtFirst
    rw [if_neg (by simp [h.1]), ih h.2]

theorem bodyMatches_eq_nil {cs : List Char}
    (h : containsLC ("elevation".toList) cs = false) : bodyMatches cs = [] := by
  unfold bodyMatches
  cases hl : cs.length with
  | zero => rfl
  | succ m =>
    unfold bodyMatchesGo
    unfold matchRound
    rw [splitAtFirst_eq_none h]

theorem mem_takeWhile_pred {p : Char → Bool} :
    ∀ {l : List Char} {c : Char}, c ∈ l.takeWhile p → p c = true := by
  intro l
  induction l with
  | nil => intro c h; exact absurd h (List.not_mem_nil c)
  | cons b bs ih =>
    intro c h
    rw [List.takeWhile_cons] at h
    split at h
    · rcases List.mem_cons.mp h with rfl | h
      · assumption
      · exact ih h
    · exact absurd h (List.not_mem_nil c)

theorem tier1After_shape : ∀ s r, tier1After s = some r → NumShape r := by
  intro s r h
  simp only [tier1After] at h
  split at h
  · exact Option.noConfusion h
  next hne =>
    split at h
    next r2 =>
      split at h
      · injection h with h
        subst h
        intro c hc
        rcases List.mem_append.mp hc with hc | hc
        · exact Or.inl (mem_takeWhile_pred hc)
        · rcases List.mem_cons.mp hc with rfl | hc
          · exact Or.inr rfl
          · exact Or.inl (mem_takeWhile_pred hc)
      split at h
      · injection h with h
        subst h
        intro c hc
        exact Or.inl (mem_takeWhile_pred hc)
      · exact Option.noConfusion h
    next =>
      split at h
      · injection h with h
        subst h
        intro c hc
        exact Or.inl (mem_takeWhile_pred hc)
      · exact Option.noConfusion h

theorem tier2After_shape : ∀ s r, tier2After s = some r → NumShape r := by
  intro s r h
  simp only [tier2After] at h
  split at h
  · exact Option.noConfusion h
  next hne =>
    split at h
    next r2 =>
      split at h
      · injection h with h
        subst h
        intro c hc
        exact Or.inl (mem_takeWhile_pred hc)
      · injection h with h
        subst h
        intro c hc
        rcases List.mem_append.mp hc with hc | hc
        · exact Or.inl (mem_takeWhile_pred hc)
        · rcases List.mem_cons.mp hc with rfl | hc
          · exact Or.inr rfl
          · exact Or.inl (mem_takeWhile_pred hc)
    next =>
      injection h with h
      subst h
      intro c hc
      exact Or.inl (mem_takeWhile_pred hc)

theorem stripCommas_ne_dash {r : List Char} (h : NumShape r) :
    stripCommas (String.mk r) ≠ "-" := by
  intro hcontra
  unfold stripCommas at hcontra
  have hdata : r.filter (fun c => c != ',') = ['-'] := by
    have := congrArg String.data hcontra
    simpa using this
  have hmem : '-' ∈ r.filter (fun c => c != ',') := by
    rw [hdata]; exact List.mem_singleton.mpr rfl
  have hmem2 : '-' ∈ r := List.mem_of_mem_filter hmem
  rcases h '-' hmem2 with hd | hd
  · exact absurd hd (by decide)
  · exact absurd hd (by decide)

theorem scan_map_ne_dash {f : List Char → Option (List Char)} {n : List Char}
    (hf : ∀ s r, f s = some r → NumShape r) {hay s : String}
    (h : (scanAfter f n hay.toList).map String.mk = some s) : stripCommas s ≠ "-" := by
  cases hsc : scanAfter f n hay.toList with
  | none => rw [hsc] at h; exact Option.noConfusion h
  | some r =>
    rw [hsc, Option.map_some'] at h
    injection h with h
    subst h
    exact stripCommas_ne_dash (scanAfter_shape f n NumShape hf hay.toList r hsc)

theorem tier1Gain_strip_ne_dash {c s : String} (h : tier1Gain c = some s) :
    stripCommas s ≠ "-" := scan_map_ne_dash tier1After_shape h

theorem tier1Loss_strip_ne_dash {c s : String} (h : tier1Loss c = some s) :
    stripCommas s ≠ "-" := scan_map_ne_dash tier1After_shape h

theorem tier2Gain_strip_ne_dash {c s : String} (h : tier2Gain c = some s) :
    stripCommas s ≠ "-" := scan_map_ne_dash tier2After_shape h

theorem tier2Loss_strip_ne_dash {c s : String} (h : tier2Loss c = some s) :
    stripCommas s ≠ "-" := scan_map_ne_dash tier2After_shape h

/-- Which pair of matches the final fields are computed from, by branch. -/
theorem extract_elevation_cases (p : ElevPage) :
    (¬((tier1Gain p.content = none ∨ tier1Loss p.content = none) ∧ proxyText p ≠ "") →
      extract_elevation_data p
        = (finalizeField (tier1Gain p.content), finalizeField (tier1Loss p.content)))
    ∧ (((tier1Gain p.content = none ∨ tier1Loss p.content = none) ∧ proxyText p ≠ "") →
      extract_elevation_data p
        = (finalizeField (tier2Gain (proxyText p)), finalizeField (tier2Loss (proxyText p)))) := by
  constructor
  · intro h
    unfold extract_elevation_data
    cases hg : tier1Gain p.content with
    | none =>
      by_cases hp : proxyText p = ""
      · simp [hg, hp]
      · exact absurd ⟨Or.inl hg, hp⟩ h
    | some g =>
      cases hl : tier1Loss p.content with
      | none =>
        by_cases hp : proxyText p = ""
        · simp [hg, hl, hp]
        · exact absurd ⟨Or.inr hl, hp⟩ h
      | some l => simp [hg, hl]
  · rintro ⟨ht, hp⟩
    unfold extract_elevation_data
    rcases ht with hg | hl
    · simp [hg, hp]
    · simp [hl, hp]

/-- A match from either tier never finalizes to the sentinel. -/
theorem finalize_eq_dash_iff_tier1Gain {c : String} :
    finalizeField (tier1Gain c) = "-" ↔ tier1Gain c = none := by
  cases h : tier1Gain c with
  | none => simp [finalizeField]
  | some s =>
    simp only [finalizeField]
    exact ⟨fun hc => absurd hc (tier1Gain_strip_ne_dash h), fun hc => Option.noConfusion hc⟩

theorem finalize_eq_dash_iff_tier1Loss {c : String} :
    finalizeField (tier1Loss c) = "-" ↔ tier1Loss c = none := by
  cases h : tier1Loss c with
  | none => simp [finalizeField]
  | some s =>
    simp only [finalizeField]
    exact ⟨fun hc => absurd hc (tier1Loss_strip_ne_dash h), fun hc => Option.noConfusion hc⟩

theorem finalize_eq_dash_iff_tier2Gain {c : String} :
    finalizeField (tier2Gain c) = "-" ↔ tier2Gain c = none := by
  cases h : tier2Gain c with
  | none => simp [finalizeField]
  | some s =>
    simp only [finalizeField]
    exact ⟨fun hc => absurd hc (tier2Gain_strip_ne_dash h), fun hc => Option.noConfusion hc⟩

theorem finalize_eq_dash_iff_tier2Loss {c : String} :
    finalizeField (tier2Loss c) = "-" ↔ tier2Loss c = none := by
  cases h : tier2Loss c with
  | none => simp [finalizeField]
  | some s =>
    simp only [finalizeField]
    exact ⟨fun hc => absurd hc (tier2Loss_strip_ne_dash h), fun hc => Option.noConfusion hc⟩

/-! ## List helpers and the CSV row computation -/

theorem map_eq_self_of {α : Type} {f : α → α} (h : ∀ a, f a = a) :
    ∀ l : List α, l.map f = l := by
  intro l
  induction l with
  | nil => rfl
  | cons x xs ih => rw [List.map_cons, h, ih]

theorem map_ext {α β : Type} {f g : α → β} (h : ∀ a, f a = g a) :
    ∀ l : List α, l.map f = l.map g := by
  intro l
  induction l with
  | nil => rfl
  | cons x xs ih => rw [List.map_cons, List.map_cons, h, ih]

/-- The `DictWriter` lookup reorders the per-race dict into the `fieldnames`
column order: `Date` moves from the dict's fifth slot to the last column. -/
theorem dictRow_recordDict (r : MarathonRecord) :
    dictRow fieldnames (recordDict r)
      = [r.state, r.stateCode, r.name, r.city, toString r.finishers, r.courseType,
         r.gain, r.loss, r.date] := by
  rfl

/-! ## Claim theorems -/

/-- Claim C1, counterexample: the extractor does NOT restrict `courseType` to
the closed vocabulary — a surviving row whose raw course text is
`"Mountainous"` yields a candidate carrying that text verbatim, refuting the
claim as stated. -/
theorem c1_counterexample :
    ¬ ∀ c ∈ parse_races_from_html c1doc,
        (c.courseType ∈ VALID_COURSE_TYPES ∨ c.courseType = "-") := by decide

/-- Claim C1, amended: every candidate's `courseType` is never `"Very Hilly"`,
never `"Very Flat"`, and never empty (the empty raw text becomes `"-"`), but
it is not confined to the closed vocabulary: any other raw text is carried
through unchanged. -/
theorem c1_amended (doc : List Row) (c : RaceCandidate)
    (h : c ∈ parse_races_from_html doc) :
    c.courseType ≠ "Very Hilly" ∧ c.courseType ≠ "Very Flat" ∧ c.courseType ≠ "" := by
  unfold parse_races_from_html at h
  obtain ⟨row, _, hp⟩ := List.mem_filterMap.mp (mem_sortDesc.mp h)
  have props := parseRow_props hp
  exact ⟨props.2.1, props.2.2.1, props.2.2.2.1⟩

/-- Witness for the amended Claim C1 at a concrete document. -/
theorem c1_amended_witness :
    c1cand.courseType ≠ "Very Hilly" ∧ c1cand.courseType ≠ "Very Flat" ∧
      c1cand.courseType ≠ "" :=
  c1_amended c1doc c1cand (by decide)

/-- Claim C2, counterexample: the tier-1 gain match succeeds (yielding 350)
and the loss match fails; tier 2 is attempted over a non-empty proxy text, and
the tier-1 gain value is NOT preserved — both fields come back as the
sentinel. -/
theorem c2_counterexample :
    tier1Gain c2xpage.content = some "350" ∧
      extract_elevation_data c2xpage = ("-", "-") := by decide

/-- Claim C2, amended: when both tier-1 matches succeed, or when the proxy
text is empty, each field is `"-"` iff its tier-1 match is missing; but when
tier 2 is attempted over a non-empty proxy text, BOTH fields are recomputed
from tier 2 alone (a tier-1 match for one field is discarded rather than
preserved), and each field is `"-"` iff its tier-2 match over the proxy text
is missing. -/
theorem c2_amended (p : ElevPage) :
    (((tier1Gain p.content = none ∨ tier1Loss p.content = none) ∧ proxyText p ≠ "") →
      (extract_elevation_data p
          = (finalizeField (tier2Gain (proxyText p)), finalizeField (tier2Loss (proxyText p))) ∧
        ((extract_elevation_data p).1 = "-" ↔ tier2Gain (proxyText p) = none) ∧
        ((extract_elevation_data p).2 = "-" ↔ tier2Loss (proxyText p) = none)))
    ∧ (¬((tier1Gain p.content = none ∨ tier1Loss p.content = none) ∧ proxyText p ≠ "") →
      (((extract_elevation_data p).1 = "-" ↔ tier1Gain p.content = none) ∧
       ((extract_elevation_data p).2 = "-" ↔ tier1Loss p.content = none))) := by
  constructor
  · intro h
    have he := (extract_elevation_cases p).2 h
    refine ⟨he, ?_, ?_⟩
    · rw [he]; exact finalize_eq_dash_iff_tier2Gain
    · rw [he]; exact finalize_eq_dash_iff_tier2Loss
  · intro h
    have he := (extract_elevation_cases p).1 h
    exact ⟨by rw [he]; exact finalize_eq_dash_iff_tier1Gain,
           by rw [he]; exact finalize_eq_dash_iff_tier1Loss⟩

/-- Witness for the amended Claim C2 at a concrete page (tier-1 gain present,
loss absent, non-empty proxy text). -/
theorem c2_amended_witness :
    extract_elevation_data c2wpage
        = (finalizeField (tier2Gain (proxyText c2wpage)),
           finalizeField (tier2Loss (proxyText c2wpage))) ∧
      ((extract_elevation_data c2wpage).1 = "-" ↔ tier2Gain (proxyText c2wpage) = none) ∧
      ((extract_elevation_data c2wpage).2 = "-" ↔ tier2Loss (proxyText c2wpage) = none) :=
  (c2_amended c2wpage).1 ⟨Or.inr (by decide), by decide⟩

/-- Claim C3: every extracted candidate has at least 100 finishers, a course
type different from `"Very Hilly"`, and originates from a document row that
parses to it and whose certification cell does not (case-insensitively)
contain "not certified". -/
theorem c3_filters (doc : List Row) (c : RaceCandidate)
    (h : c ∈ parse_races_from_html doc) :
    100 ≤ c.finishers ∧ c.courseType ≠ "Very Hilly" ∧
      ∃ row, row ∈ doc ∧ parseRow row = some c ∧ certBad row = false := by
  unfold parse_races_from_html at h
  obtain ⟨row, hrow, hp⟩ := List.mem_filterMap.mp (mem_sortDesc.mp h)
  have props := parseRow_props hp
  exact ⟨props.1, props.2.1, row, hrow, hp, props.2.2.2.2⟩

/-- Witness for Claim C3 at a concrete document. -/
theorem c3_filters_witness :
    100 ≤ c3cand.finishers ∧ c3cand.courseType ≠ "Very Hilly" ∧
      ∃ row, row ∈ c3doc ∧ parseRow row = some c3cand ∧ certBad row = false :=
  c3_filters c3doc c3cand (by decide)

/-- Claim C4: the extracted sequence is sorted by finishers descending, and
the sort is stable — for every finisher count, the candidates carrying it
appear in exactly their original row-encounter order (the order of
`doc.filterMap parseRow`). -/
theorem c4_ranking (doc : List Row) :
    (parse_races_from_html doc).Pairwise (fun a b => b.finishers ≤ a.finishers) ∧
      ∀ k : Nat, (parse_races_from_html doc).filter (fun c => c.finishers == k)
        = (doc.filterMap parseRow).filter (fun c => c.finishers == k) := by
  unfold parse_races_from_html
  exact ⟨sortDesc_pairwise _, fun k => sortDesc_filter _ k⟩

/-- Claim C5, counterexample: on the spec's own free-text example the tier-2
patterns still require the number to follow the label directly, so recovery
returns the sentinel, not 350. -/
theorem c5_counterexample :
    (extract_elevation_data c5xpage).1 = "-" ∧
      (extract_elevation_data c5xpage).1 ≠ "350" := by decide

/-- Claim C5, amended: tier-2 recovery from free text succeeds when the
number directly follows the label (after optional colons/whitespace), e.g.
`"elevation gain: 350"` yields gain 350 (the loss mention falls outside the
captured proxy text and yields `"-"`); intervening words such as "is about"
defeat recovery.  Comma thousands separators are stripped: tier-1
`"Elevation Gain: 1,200 feet"` yields `"1200"`. -/
theorem c5_amended :
    extract_elevation_data c5apage = ("350", "-") ∧
      extract_elevation_data c5bpage = ("1200", "85") := by decide

/-- Claim C6: the recovery function is total (modelling "never raises"), and
for any detail page with no elevation-related text — no case-insensitive
occurrence of "elevation", "gain" or "loss" in the content, the elevation
section, or the body text — it returns the sentinel pair. -/
theorem c6_sentinel (p : ElevPage) (hc : mentionsElev p.content = false)
    (hs : ∀ t, p.elevSection = some t → mentionsElev t = false)
    (hb : mentionsElev p.bodyText = false) :
    extract_elevation_data p = ("-", "-") := by
  simp only [mentionsElev, Bool.or_eq_false_iff] at hc hb
  have hjoin : ("elevation ".toList ++ "gain".toList) = "elevation gain".toList := by decide
  have hjoin2 : ("elevation ".toList ++ "loss".toList) = "elevation loss".toList := by decide
  have hg1 : tier1Gain p.content = none := by
    have h2 := @containsLC_append_false ("elevation ".toList) ("gain".toList)
      p.content.toList hc.1.2
    rw [hjoin] at h2
    unfold tier1Gain
    rw [scanAfter_eq_none _ _ _ h2]
    rfl
  have hl1 : tier1Loss p.content = none := by
    have h2 := @containsLC_append_false ("elevation ".toList) ("loss".toList)
      p.content.toList hc.2
    rw [hjoin2] at h2
    unfold tier1Loss
    rw [scanAfter_eq_none _ _ _ h2]
    rfl
  by_cases hp : proxyText p = ""
  · have he := (extract_elevation_cases p).1 (fun hcontra => hcontra.2 hp)
    rw [he, hg1, hl1]
    rfl
  · have he := (extract_elevation_cases p).2 ⟨Or.inl hg1, hp⟩
    cases hsec : p.elevSection with
    | none =>
      exfalso
      apply hp
      unfold proxyText
      rw [hsec, bodyMatches_eq_nil hb.1.1]
    | some t =>
      have hm := hs t hsec
      simp only [mentionsElev, Bool.or_eq_false_iff] at hm
      have hproxy : proxyText p = t := by unfold proxyText; rw [hsec]
      have h2g : tier2Gain t = none := by
        unfold tier2Gain; rw [scanAfter_eq_none _ _ _ hm.1.2]; rfl
      have h2l : tier2Loss t = none := by
        unfold tier2Loss; rw [scanAfter_eq_none _ _ _ hm.2]; rfl
      rw [he, hproxy, h2g, h2l]
      rfl

/-- Witness for Claim C6 at a concrete page carrying no elevation words. -/
theorem c6_sentinel_witness : extract_elevation_data c6page = ("-", "-") :=
  c6_sentinel c6page (by decide) (by intro t ht; exact Option.noConfusion ht) (by decide)

/-- Claim C7: a row whose raw course text is `"Very Flat"` and which passes
the structural, name, certification and finisher checks always produces a
candidate, and its `courseType` is `"Flat"` — the rewrite precedes (and thus
immunizes against) the `"Very Hilly"` exclusion. -/
theorem c7_very_flat (row : Row) (ne : HeadingElem) (ce : Option HeadingElem)
    (h4 : ¬ row.cells.length < 4)
    (hr : resolveNameCity (row.cells.getD 0 emptyCell) = some (ne, ce))
    (hn : ¬ raceNameOf ne = "")
    (hcb : ¬ certBad row = true)
    (hf : ¬ finishersOf row < 100)
    (hvf : rawCourseOf row = "Very Flat") :
    ∃ c, parseRow row = some c ∧ c.courseType = "Flat" := by
  have hnorm : normCourseOf row = "Flat" := by unfold normCourseOf; rw [if_pos hvf]
  have hvh : ¬ normCourseOf row = "Very Hilly" := by rw [hnorm]; decide
  refine ⟨_, parseRow_success h4 hr hn hvh hcb hf, ?_⟩
  simp [hnorm]

/-- Witness for Claim C7 at a minimal row (no city, no date, no anchor, no
fifth cell). -/
theorem c7_very_flat_witness : ∃ c, parseRow c7row = some c ∧ c.courseType = "Flat" :=
  c7_very_flat c7row c7ne none (by decide) (by decide) (by decide) (by decide)
    (by decide) (by decide)

/-- Claim C8: a state's collected records are at most `maxRaces` many, their
underlying candidates are exactly the first `maxRaces` ranked candidates of
the listing page — a prefix of the ranked sequence — and the source default
for `maxRaces` is 5. -/
theorem c8_truncation (state code : String) (maxRaces : Nat) (listing : List Row)
    (details : String → ElevPage) :
    (collect_state_data state code maxRaces listing details).length ≤ maxRaces ∧
      (collect_state_data state code maxRaces listing details).map candidateOf
        = (parse_races_from_html listing).take maxRaces ∧
      (parse_races_from_html listing).take maxRaces <+: parse_races_from_html listing ∧
      default_max_races = 5 := by
  refine ⟨?_, ?_,
    ⟨(parse_races_from_html listing).drop maxRaces, List.take_append_drop _ _⟩, rfl⟩
  · unfold collect_state_data
    rw [List.length_map, List.length_take]
    exact Nat.min_le_left _ _
  · unfold collect_state_data
    rw [List.map_map]
    exact map_eq_self_of (fun r => rfl) _

/-- Claim C9: the emitted table is exactly the fixed header row (with `Date`
last, although the per-race dict lists it fifth) followed by one row per
record, fields in the fixed column order, records in production order (state
iteration order, ranked order within a state). -/
theorem c9_output_table (site : String → List Row) (details : String → ElevPage) :
    mainTable site details
      = ["State", "State_Code", "Marathon Name", "City", "Finishers", "Course Type",
         "Elevation Gain (ft)", "Elevation Loss (ft)", "Date"] ::
        ((US_STATES.map fun sc =>
            collect_state_data sc.1 sc.2 default_max_races (site sc.1) details).flatten).map
          (fun r => [r.state, r.stateCode, r.name, r.city, toString r.finishers,
                     r.courseType, r.gain, r.loss, r.date]) := by
  unfold mainTable
  dsimp only
  rw [map_ext (fun r => dictRow_recordDict r) _]
  rfl

/-- Claim C10: the course-type rewrite and exclusion are exact, case-sensitive
comparisons — a row whose raw course text differs from `"Very Flat"`,
`"Very Hilly"` and `""` (e.g. the case variants `"very hilly"`, `"VERY FLAT"`)
is neither normalized nor discarded: the raw text is carried into the
candidate — while any row whose certification cell matches "not certified"
case-insensitively is discarded. -/
theorem c10_case_sensitivity :
    (∀ (row : Row) (ne : HeadingElem) (ce : Option HeadingElem),
        ¬ row.cells.length < 4 →
        resolveNameCity (row.cells.getD 0 emptyCell) = some (ne, ce) →
        ¬ raceNameOf ne = "" → ¬ certBad row = true → ¬ finishersOf row < 100 →
        rawCourseOf row ≠ "Very Flat" → rawCourseOf row ≠ "Very Hilly" →
        rawCourseOf row ≠ "" →
        ∃ c, parseRow row = some c ∧ c.courseType = rawCourseOf row)
    ∧ ∀ row : Row, certBad row = true → parseRow row = none := by
  constructor
  · intro row ne ce h4 hr hn hcb hf hvf hvh hne
    have hnorm : normCourseOf row = rawCourseOf row := by
      unfold normCourseOf; rw [if_neg hvf]
    have hvh2 : ¬ normCourseOf row = "Very Hilly" := by rw [hnorm]; exact hvh
    refine ⟨_, parseRow_success h4 hr hn hvh2 hcb hf, ?_⟩
    simp [hnorm, hne]
  · intro row h
    exact parseRow_none_of_certBad h

/-- Witness for Claim C10: `"very hilly"` survives with its raw text,
`"VERY FLAT"` is not normalized, and an upper-case "NOT Certified" cell still
discards the row. -/
theorem c10_case_sensitivity_witness :
    (∃ c, parseRow c10rowVH = some c ∧ c.courseType = "very hilly") ∧
      (∃ c, parseRow c10rowVF = some c ∧ c.courseType = "VERY FLAT") ∧
      parseRow c10rowCert = none := by
  refine ⟨?_, ?_, c10_case_sensitivity.2 c10rowCert (by decide)⟩
  · obtain ⟨c, hc, hct⟩ := c10_case_sensitivity.1 c10rowVH c10neVH none (by decide)
      (by decide) (by decide) (by decide) (by decide) (by decide) (by decide) (by decide)
    exact ⟨c, hc, hct.trans (by decide)⟩
  · obtain ⟨c, hc, hct⟩ := c10_case_sensitivity.1 c10rowVF c10neVF none (by decide)
      (by decide) (by decide) (by decide) (by decide) (by decide) (by decide) (by decide)
    exact ⟨c, hc, hct.trans (by decide)⟩
